import Mathlib

/-!
Verification development for the `lsm-perf.py` benchmark orchestrator.

The script boots one qemu VM per kernel candidate, opens an SSH control
channel with a bounded retry loop, uploads a workload binary, runs warmup
and measured repetitions, and appends one CSV row per completed
(kernel, round) evaluation.

The shallow embedding below models the script's control flow over an
explicit environment (`World`) that records the outcome of every external
interaction: each SSH connection attempt, the workload upload, every
workload invocation, and the remote delete.  Executions return the list of
observable events they perform together with a Python-style outcome
(`Except PyErr`), where `PyErr.keyboardInterrupt` models a user interrupt
raised by the blocking call it decorates.
-/

set_option autoImplicit false

namespace LsmPerf

/-- Python exceptions that can cross the module boundaries modelled here.
`commsError` stands for the `(EOFError, plumbum...SSHCommsError)` tuple
caught by the retry loop in `VM.__enter__` (lsm-perf.py line 88);
`processError` is plumbum's `ProcessExecutionError` from a failing remote
command; `valueError` is the `int()` parse failure, carrying the offending
string; `statisticsError` is raised by `statistics.mean`/`statistics.stdev`
on fewer than the required data points. -/
inductive PyErr where
  | keyboardInterrupt : PyErr
  | nameError : PyErr
  | commsError : Nat → PyErr
  | processError : Nat → PyErr
  | valueError : String → PyErr
  | statisticsError : PyErr
deriving DecidableEq, BEq, Repr

/-- The errors caught by the `except (EOFError, SSHCommsError)` clause of
`VM.__enter__` (lsm-perf.py line 88). -/
def isCommsError : PyErr → Bool
  | .commsError _ => true
  | _ => false

instance {ε α : Type} [DecidableEq ε] [DecidableEq α] : DecidableEq (Except ε α) := fun x y =>
  match x, y with
  | Except.ok a, Except.ok b =>
    if h : a = b then isTrue (h ▸ rfl)
    else isFalse (fun hc => h (by injection hc))
  | Except.ok _, Except.error _ => isFalse (fun hc => Except.noConfusion hc)
  | Except.error _, Except.ok _ => isFalse (fun hc => Except.noConfusion hc)
  | Except.error a, Except.error b =>
    if h : a = b then isTrue (h ▸ rfl)
    else isFalse (fun hc => h (by injection hc))

/-- Observable actions performed by the script, in program order.
`constructVM` is the `popen` of qemu in `VM.__init__` (line 76);
`connAttempt k` is the `SshMachine` call of 1-based attempt `k` (line 86);
`closeSession`, `writeQemuExit`, `terminateProcess` and `gracePeriod` are
the four statements of `VM.__exit__` (lines 96-101). -/
inductive Event where
  | constructVM : Event
  | connAttempt : Nat → Event
  | sessionEstablished : Nat → Event
  | uploadWorkload : Event
  | warmupRun : Nat → Event
  | measuredRun : Nat → Event
  | deleteWorkload : Event
  | closeSession : Event
  | writeQemuExit : Event
  | terminateProcess : Event
  | gracePeriod : Event
deriving DecidableEq, BEq, Repr

/-- Module-level constant `ROUNDS = 3` (lsm-perf.py line 12). -/
def ROUNDS : Nat := 3

/-- Module-level constant `REPETITIONS_PER_ROUND = 50` (line 13). -/
def REPETITIONS_PER_ROUND : Nat := 50

/-- Module-level constant `WARMUP_RUNS = 5` (line 14). -/
def WARMUP_RUNS : Nat := 5

/-- The module-level counters of lsm-perf.py gathered into one record so
that statements can also be made at non-default sizes (e.g. the spec's
3-repetition scenario). The defaults are the source's constants. -/
structure Config where
  rounds : Nat := ROUNDS
  reps : Nat := REPETITIONS_PER_ROUND
  warmup : Nat := WARMUP_RUNS
deriving Repr

def defaultConfig : Config := {}

/-- The environment of one kernel evaluation: the outcome of every
external interaction. `connAttempt k` is the outcome of the `k`-th
(1-based) `SshMachine` call, `none` meaning success; `runResult i` is the
outcome of the `i`-th invocation (0-based, warmups first) of the uploaded
workload, `Except.ok` carrying its stdout. -/
structure World where
  connAttempt : Nat → Option PyErr
  scpResult : Option PyErr
  runResult : Nat → Except PyErr String
  deleteResult : Option PyErr

/-- Decimal digits accumulated left to right; `none` on a non-digit. -/
def digitsVal (acc : Nat) : List Char → Option Nat
  | [] => some acc
  | c :: cs => if c.isDigit then digitsVal (acc * 10 + (c.toNat - 48)) cs else none

/-- Python `str.strip()`: leading and trailing whitespace removed. -/
def pyStrip (cs : List Char) : List Char :=
  ((cs.dropWhile Char.isWhitespace).reverse.dropWhile Char.isWhitespace).reverse

/-- Python `int(s.strip())` on the relevant inputs: leading/trailing
whitespace removed, then an optional sign followed by a nonempty run of
decimal digits; anything else raises `ValueError`. (Python additionally
accepts underscore digit separators and non-ASCII digits; those never
occur in the inputs considered here.) -/
def pyParseInt (s : String) : Option Int :=
  match pyStrip s.data with
  | [] => none
  | '-' :: cs => if cs = [] then none else (digitsVal 0 cs).map (fun n => -(n : Int))
  | '+' :: cs => if cs = [] then none else (digitsVal 0 cs).map (fun n => (n : Int))
  | cs => (digitsVal 0 cs).map (fun n => (n : Int))

/-- The retry loop of `VM.__enter__` (lsm-perf.py lines 82-91): `k` is the
1-based number of the current attempt and `r` the number of retries still
allowed after it, i.e. the source's countdown counter `c` minus one (the
source checks `c == 0` after decrementing, so a countdown of `c` permits
`c` attempts in total). Each iteration sleeps, then calls `SshMachine`; a
`commsError` with no retry left re-raises the caught error, a `commsError`
with retries left continues, any other error propagates at once, and a
success ends the loop with the session handle (modelled by the attempt
number) stored in `self.ssh`. With no retry left a comms error and any
other error alike propagate, so the two branches coincide. -/
def enterLoop (w : World) : Nat → Nat → List Event × Except PyErr Nat
  | k, 0 =>
    match w.connAttempt k with
    | none => ([Event.connAttempt k, Event.sessionEstablished k], Except.ok k)
    | some e => ([Event.connAttempt k], Except.error e)
  | k, r + 1 =>
    match w.connAttempt k with
    | none => ([Event.connAttempt k, Event.sessionEstablished k], Except.ok k)
    | some e =>
      if isCommsError e then
        let t := enterLoop w (k + 1) r
        (Event.connAttempt k :: t.1, t.2)
      else ([Event.connAttempt k], Except.error e)

/-- `VM.__enter__` (lsm-perf.py lines 80-92): the retry loop started with
countdown `c = 5`, i.e. four retries after the first attempt. -/
def vmEnter (w : World) : List Event × Except PyErr Nat :=
  enterLoop w 1 4

/-- `VM.__exit__` (lsm-perf.py lines 94-101): close the SSH session if one
exists, write the qemu exit escape sequence to the process's stdin,
terminate the process, and sleep for the 0.5 s grace period. -/
def vmExit (hasSession : Bool) : List Event :=
  (if hasSession then [Event.closeSession] else []) ++
    [Event.writeQemuExit, Event.terminateProcess, Event.gracePeriod]

/-- The warmup loop of `evaluate_kernel` (lsm-perf.py lines 52-53):
`n` remaining iterations, `i` the global index of the next workload
invocation. Output is discarded; a failing invocation raises. -/
def warmupLoop (w : World) : Nat → Nat → List Event × Option PyErr
  | _, 0 => ([], none)
  | i, n + 1 =>
    match w.runResult i with
    | Except.error e => ([Event.warmupRun i], some e)
    | Except.ok _ =>
      let r := warmupLoop w (i + 1) n
      (Event.warmupRun i :: r.1, r.2)

/-- The measured loop of `evaluate_kernel` (lsm-perf.py lines 55-58):
`results.append(int(work_cmd().strip()))` repeated; `base` is the number
of invocations already spent on warmup, `j` the 0-based repetition index,
`n` the remaining repetitions. A failing invocation raises its error, an
unparsable output raises `ValueError`. -/
def measuredLoop (w : World) (base : Nat) : Nat → Nat → List Event × Except PyErr (List Int)
  | _, 0 => ([], Except.ok [])
  | j, n + 1 =>
    match w.runResult (base + j) with
    | Except.error e => ([Event.measuredRun j], Except.error e)
    | Except.ok s =>
      match pyParseInt s with
      | none => ([Event.measuredRun j], Except.error (PyErr.valueError s))
      | some v =>
        let r := measuredLoop w base (j + 1) n
        (Event.measuredRun j :: r.1, r.2.map (fun l => v :: l))

/-- The body of the `with VM(...)` block in `evaluate_kernel`
(lsm-perf.py lines 48-60): upload the workload, run the warmups, run the
measured repetitions, delete the uploaded workload. The first failing
step raises its error. -/
def evalBody (cfg : Config) (w : World) : List Event × Except PyErr (List Int) :=
  match w.scpResult with
  | some e => ([Event.uploadWorkload], Except.error e)
  | none =>
    match (warmupLoop w 0 cfg.warmup).2 with
    | some e => (Event.uploadWorkload :: (warmupLoop w 0 cfg.warmup).1, Except.error e)
    | none =>
      match (measuredLoop w cfg.warmup 0 cfg.reps).2 with
      | Except.error e =>
        (Event.uploadWorkload ::
          ((warmupLoop w 0 cfg.warmup).1 ++ (measuredLoop w cfg.warmup 0 cfg.reps).1),
          Except.error e)
      | Except.ok results =>
        match w.deleteResult with
        | some e =>
          (Event.uploadWorkload ::
            ((warmupLoop w 0 cfg.warmup).1 ++ (measuredLoop w cfg.warmup 0 cfg.reps).1 ++
              [Event.deleteWorkload]),
            Except.error e)
        | none =>
          (Event.uploadWorkload ::
            ((warmupLoop w 0 cfg.warmup).1 ++ (measuredLoop w cfg.warmup 0 cfg.reps).1 ++
              [Event.deleteWorkload]),
            Except.ok results)

/-- `evaluate_kernel` (lsm-perf.py lines 39-66). `VM.__init__` starts the
qemu process unconditionally (`constructVM`); then `with VM(...)` calls
`__enter__`. Python does not call `__exit__` when `__enter__` raises, so
on a connection failure the trace ends without any teardown event. When
`__enter__` succeeds, `__exit__` runs on every exit from the block, and
afterwards `statistics.mean`/`statistics.stdev` are evaluated for the
status line, raising `StatisticsError` when fewer than two samples exist. -/
def evaluate_kernel (cfg : Config) (w : World) : List Event × Except PyErr (List Int) :=
  match (vmEnter w).2 with
  | Except.error e => (Event.constructVM :: (vmEnter w).1, Except.error e)
  | Except.ok _ =>
    (Event.constructVM :: ((vmEnter w).1 ++ (evalBody cfg w).1 ++ vmExit true),
      match (evalBody cfg w).2 with
      | Except.error e => Except.error e
      | Except.ok results =>
        if results.length < 2 then Except.error PyErr.statisticsError
        else Except.ok results)

/-- Exact-arithmetic counterpart of `statistics.mean` on integer samples. -/
def sampleMean (l : List Int) : ℚ :=
  (l.sum : ℚ) / (l.length : ℚ)

/-- Exact-arithmetic counterpart of the square of `statistics.stdev`
(sample variance with Bessel's correction); `statistics.stdev l` is its
square root, so it is zero exactly when this is. -/
def sampleVar (l : List Int) : ℚ :=
  (l.map (fun x => ((x : ℚ) - sampleMean l) * ((x : ℚ) - sampleMean l))).sum /
    ((l.length : ℚ) - 1)

/-- The output file handle: `flushed` is what has reached the file,
`pending` the user-space buffer, `closed` whether `close()` ran. -/
structure OutFile where
  flushed : String
  pending : String
  closed : Bool
deriving DecidableEq, Repr

def emptyFile : OutFile := ⟨"", "", false⟩

/-- The header line written by `init_output_file` (lsm-perf.py
lines 140-144): the column names joined by commas. -/
def headerRow (cfg : Config) : String :=
  String.intercalate ","
    (["kernel path", "round"] ++ (List.range cfg.reps).map (fun i => "run " ++ toString i)) ++ "\n"

/-- `init_output_file` (lsm-perf.py lines 140-144): writes the header row,
without flushing. -/
def init_output_file (cfg : Config) (f : OutFile) : OutFile :=
  { f with pending := f.pending ++ headerRow cfg }

/-- The data row built by `write_results_to_file` (lsm-perf.py
lines 147-150): kernel path, round index and samples, `str`-rendered and
comma-joined. -/
def resultRowStr (kernelPath : String) (round : Nat) (results : List Int) : String :=
  String.intercalate "," (kernelPath :: toString round :: results.map toString) ++ "\n"

/-- `file.flush()`: moves the user-space buffer into the file. -/
def flushFile (f : OutFile) : OutFile :=
  { f with flushed := f.flushed ++ f.pending, pending := "" }

/-- `write_results_to_file` (lsm-perf.py lines 147-151): append one data
row, then flush. -/
def write_results_to_file (f : OutFile) (kernelPath : String) (round : Nat)
    (results : List Int) : OutFile :=
  flushFile { f with pending := f.pending ++ resultRowStr kernelPath round results }

/-- `file.close()`: flushes any buffered output and marks the handle
closed. -/
def closeFile (f : OutFile) : OutFile :=
  { flushFile f with closed := true }

/-- The inner `for kernel in args.kernels` loop of `main` (lsm-perf.py
lines 24-31), abstracted over the per-kernel evaluation `step` (which
receives the round and the kernel's position). The first error ends the
loop and propagates; a success writes that kernel's row. Returns the
events performed, the file state, and the propagating error if any. -/
def kernelsLoop (step : Nat → Nat → List Event × Except PyErr (List Int)) (round : Nat) :
    List String → Nat → OutFile → List Event × OutFile × Option PyErr
  | [], _, f => ([], f, none)
  | kpath :: rest, j, f =>
    match step round j with
    | (evs, Except.error e) => (evs, f, some e)
    | (evs, Except.ok results) =>
      let t := kernelsLoop step round rest (j + 1) (write_results_to_file f kpath round results)
      (evs ++ t.1, t.2.1, t.2.2)

/-- The outer `for round in range(ROUNDS)` loop of `main` (lsm-perf.py
lines 22-31): `r` is the current round index, `n` the rounds remaining. -/
def roundsLoop (step : Nat → Nat → List Event × Except PyErr (List Int))
    (kernels : List String) : Nat → Nat → OutFile → List Event × OutFile × Option PyErr
  | _, 0, f => ([], f, none)
  | r, n + 1, f =>
    match kernelsLoop step r kernels 0 f with
    | (evs, f2, some e) => (evs, f2, some e)
    | (evs, f2, none) =>
      let t := roundsLoop step kernels (r + 1) n f2
      (evs ++ t.1, t.2.1, t.2.2)

/-- The `try`/`except KeyboardInterrupt`/`finally` skeleton of `main`
(lsm-perf.py lines 19-36), abstracted over the per-kernel evaluation
`step`: write the header, run the nested loops, catch only
`KeyboardInterrupt` (then `return 0`), close the output file on every
path, and let any other error propagate after the `finally` block. -/
def mainWith (cfg : Config) (kernels : List String)
    (step : Nat → Nat → List Event × Except PyErr (List Int)) (f0 : OutFile) :
    List Event × OutFile × Except PyErr Nat :=
  match roundsLoop step kernels 0 cfg.rounds (init_output_file cfg f0) with
  | (evs, f, none) => (evs, closeFile f, Except.ok 0)
  | (evs, f, some PyErr.keyboardInterrupt) => (evs, closeFile f, Except.ok 0)
  | (evs, f, some e) => (evs, closeFile f, Except.error e)

/-- The loop body `main` actually executes (lsm-perf.py line 25): the name
`evaluating_kernel` is not defined anywhere in the module (the function is
named `evaluate_kernel`), so every iteration raises `NameError` before
anything else happens. -/
def nameErrorStep : Nat → Nat → List Event × Except PyErr (List Int) :=
  fun _ _ => ([], Except.error PyErr.nameError)

/-- `main` (lsm-perf.py lines 19-36) as written in the source: the
orchestration skeleton instantiated with the undefined-name loop body. -/
def main (cfg : Config) (kernels : List String) (f0 : OutFile) :
    List Event × OutFile × Except PyErr Nat :=
  mainWith cfg kernels nameErrorStep f0

/-- The loop body `main` evidently intends (and the spec's
EvaluationSession describes): per kernel and round, run `evaluate_kernel`
in the environment `env round kernelIndex`. -/
def evalStep (cfg : Config) (env : Nat → Nat → World) :
    Nat → Nat → List Event × Except PyErr (List Int) :=
  fun r j => evaluate_kernel cfg (env r j)

/-- Occurrences of the event `x` in a trace. -/
def countEvent (x : Event) (l : List Event) : Nat :=
  l.countP (fun e => e == x)

/-- Whether an event is an `SshMachine` connection attempt. -/
def isConnAttempt : Event → Bool
  | .connAttempt _ => true
  | _ => false

/-- Number of connection attempts recorded in a trace. -/
def countAttempts (l : List Event) : Nat :=
  l.countP isConnAttempt

/-- The retry loop makes at most `r + 1` connection attempts when entered
with `r` retries remaining. -/
theorem enterLoop_attempts_le (w : World) :
    ∀ r k, countAttempts (enterLoop w k r).1 ≤ r + 1 := by
  intro r
  induction r with
  | zero =>
    intro k
    cases h : w.connAttempt k <;>
      simp [enterLoop, h, countAttempts, List.countP_cons, isConnAttempt]
  | succ r ih =>
    intro k
    cases h : w.connAttempt k with
    | none => simp [enterLoop, h, countAttempts, List.countP_cons, isConnAttempt]
    | some e =>
      cases hc : isCommsError e with
      | false => simp [enterLoop, h, hc, countAttempts, List.countP_cons, isConnAttempt]
      | true =>
        have := ih (k + 1)
        simp only [enterLoop, h, hc, if_true, countAttempts, List.countP_cons] at *
        simp [isConnAttempt]
        omega

/-- If every attempt the loop can make fails with a communication error,
the loop performs all `r + 1` attempts and re-raises the error of the last
one. -/
theorem enterLoop_all_fail (w : World) :
    ∀ r k, (∀ j, k ≤ j → j ≤ k + r → ∃ e, w.connAttempt j = some e ∧ isCommsError e = true) →
      ∃ e, w.connAttempt (k + r) = some e ∧
        enterLoop w k r = ((List.range' k (r + 1)).map Event.connAttempt, Except.error e) := by
  intro r
  induction r with
  | zero =>
    intro k h
    obtain ⟨e, he, _⟩ := h k le_rfl (by omega)
    refine ⟨e, by simpa using he, ?_⟩
    simp [enterLoop, he, List.range'_succ]
  | succ r ih =>
    intro k h
    obtain ⟨e0, he0, hc0⟩ := h k le_rfl (by omega)
    obtain ⟨e, he, heq⟩ := ih (k + 1) (fun j h1 h2 => h j (by omega) (by omega))
    refine ⟨e, ?_, ?_⟩
    · have : k + 1 + r = k + (r + 1) := by omega
      rwa [this] at he
    · rw [List.range'_succ]
      simp [enterLoop, he0, hc0, heq]

/-- If the first `m` attempts fail with communication errors and attempt
`k + m` succeeds (with `m` within the retry budget), the loop stops right
there with the session of attempt `k + m` stored. -/
theorem enterLoop_success_at (w : World) :
    ∀ m r k, m ≤ r →
      (∀ j, k ≤ j → j < k + m → ∃ e, w.connAttempt j = some e ∧ isCommsError e = true) →
      w.connAttempt (k + m) = none →
      enterLoop w k r = ((List.range' k m).map Event.connAttempt ++
        [Event.connAttempt (k + m), Event.sessionEstablished (k + m)], Except.ok (k + m)) := by
  intro m
  induction m with
  | zero =>
    intro r k _ _ hconn
    rw [Nat.add_zero] at hconn ⊢
    cases r <;> simp [enterLoop, hconn]
  | succ m ih =>
    intro r k hmr h hconn
    obtain ⟨r', rfl⟩ : ∃ r', r = r' + 1 := ⟨r - 1, by omega⟩
    obtain ⟨e0, he0, hc0⟩ := h k le_rfl (by omega)
    have hconn2 : w.connAttempt (k + 1 + m) = none := by
      have hx : k + 1 + m = k + (m + 1) := by omega
      rw [hx]; exact hconn
    have hrec := ih r' (k + 1) (by omega) (fun j h1 h2 => h j (by omega) (by omega)) hconn2
    rw [List.range'_succ]
    have hidx : k + 1 + m = k + (m + 1) := by omega
    rw [hidx] at hrec
    simp [enterLoop, he0, hc0, hrec]

/-- Events of the retry loop are connection attempts and session
establishment only. -/
theorem enterLoop_events (w : World) :
    ∀ r k e, e ∈ (enterLoop w k r).1 →
      (∃ a, e = Event.connAttempt a) ∨ ∃ a, e = Event.sessionEstablished a := by
  intro r
  induction r with
  | zero =>
    intro k e he
    cases h : w.connAttempt k <;> simp [enterLoop, h] at he <;> tauto
  | succ r ih =>
    intro k e he
    cases h : w.connAttempt k with
    | none => simp [enterLoop, h] at he; tauto
    | some e0 =>
      cases hc : isCommsError e0 with
      | false => simp [enterLoop, h, hc] at he; tauto
      | true =>
        simp only [enterLoop, h, hc, if_true, List.mem_cons] at he
        rcases he with rfl | he
        · exact Or.inl ⟨k, rfl⟩
        · exact ih (k + 1) e he

/-- Retry loops over equal connection-attempt environments coincide. -/
theorem enterLoop_congr (w w2 : World) (hconn : w.connAttempt = w2.connAttempt) :
    ∀ r k, enterLoop w k r = enterLoop w2 k r := by
  intro r
  induction r with
  | zero => intro k; simp only [enterLoop, hconn]
  | succ r ih => intro k; simp only [enterLoop, hconn, ih (k + 1)]

/-- When every warmup invocation succeeds, the warmup loop performs
exactly its `n` runs, in order, and discards all outputs. -/
theorem warmupLoop_ok (w : World) :
    ∀ n i, (∀ j, j < n → ∃ s, w.runResult (i + j) = Except.ok s) →
      warmupLoop w i n = ((List.range' i n).map Event.warmupRun, none) := by
  intro n
  induction n with
  | zero => intro i _; simp [warmupLoop]
  | succ n ih =>
    intro i h
    obtain ⟨s, hs⟩ := h 0 (by omega)
    rw [Nat.add_zero] at hs
    have hrec := ih (i + 1) (fun j hj => by
      have hx : i + 1 + j = i + (j + 1) := by omega
      rw [hx]; exact h (j + 1) (by omega))
    rw [List.range'_succ]
    simp [warmupLoop, hs, hrec]

/-- Events of the warmup loop are warmup runs only. -/
theorem warmupLoop_events (w : World) :
    ∀ n i e, e ∈ (warmupLoop w i n).1 → ∃ a, e = Event.warmupRun a := by
  intro n
  induction n with
  | zero => intro i e he; simp [warmupLoop] at he
  | succ n ih =>
    intro i e he
    cases h : w.runResult i with
    | error e0 => simp [warmupLoop, h] at he; exact ⟨i, he⟩
    | ok s =>
      simp only [warmupLoop, h, List.mem_cons] at he
      rcases he with rfl | he
      · exact ⟨i, rfl⟩
      · exact ih (i + 1) e he

/-- Inversion for a measured loop that returned samples: there are
exactly `n` of them, the trace is the `n` measured runs in order, and the
`i`-th sample is the parse of the output of the `i`-th measured
invocation. -/
theorem measuredLoop_ok_inv (w : World) (base : Nat) :
    ∀ n j evs rs, measuredLoop w base j n = (evs, Except.ok rs) →
      rs.length = n ∧ evs = (List.range' j n).map Event.measuredRun ∧
      ∀ i, i < n → ∃ s v, w.runResult (base + j + i) = Except.ok s ∧
        pyParseInt s = some v ∧ rs[i]? = some v := by
  intro n
  induction n with
  | zero =>
    intro j evs rs h
    simp only [measuredLoop, Prod.mk.injEq] at h
    obtain ⟨rfl, h2⟩ := h
    cases h2
    exact ⟨rfl, by simp, fun i hi => absurd hi (by omega)⟩
  | succ n ih =>
    intro j evs rs h
    cases hr : w.runResult (base + j) with
    | error e => rw [measuredLoop, hr] at h; simp at h
    | ok s =>
      cases hp : pyParseInt s with
      | none => rw [measuredLoop, hr] at h; simp [hp] at h
      | some v =>
        rw [measuredLoop, hr] at h
        simp only [hp] at h
        cases ht : (measuredLoop w base (j + 1) n).2 with
        | error e2 => rw [ht] at h; simp [Except.map] at h
        | ok rs2 =>
          rw [ht] at h
          simp only [Except.map, Prod.mk.injEq, Except.ok.injEq] at h
          obtain ⟨rfl, rfl⟩ := h
          have hpair : measuredLoop w base (j + 1) n =
              ((measuredLoop w base (j + 1) n).1, Except.ok rs2) := by
            rw [← ht]
          obtain ⟨hlen, hevs, hidx⟩ := ih (j + 1) _ _ hpair
          refine ⟨by simp [hlen], ?_, ?_⟩
          · rw [List.range'_succ]
            simp [hevs]
          · intro i hi
            cases i with
            | zero => exact ⟨s, v, by simpa using hr, hp, by simp⟩
            | succ i =>
              obtain ⟨s2, v2, h1, h2, h3⟩ := hidx i (by omega)
              refine ⟨s2, v2, ?_, h2, by simpa using h3⟩
              have hx : base + (j + 1) + i = base + j + (i + 1) := by omega
              rwa [hx] at h1

/-- When every measured invocation succeeds and parses, the measured loop
completes with some list of samples and the `n` measured-run events. -/
theorem measuredLoop_ok_shape (w : World) (base : Nat) :
    ∀ n j, (∀ i, i < n → ∃ s v, w.runResult (base + j + i) = Except.ok s ∧
        pyParseInt s = some v) →
      ∃ rs, measuredLoop w base j n = ((List.range' j n).map Event.measuredRun, Except.ok rs) := by
  intro n
  induction n with
  | zero => intro j _; exact ⟨[], by simp [measuredLoop]⟩
  | succ n ih =>
    intro j h
    obtain ⟨s, v, hs, hv⟩ := h 0 (by omega)
    rw [Nat.add_zero] at hs
    obtain ⟨rs, hrec⟩ := ih (j + 1) (fun i hi => by
      have hx : base + (j + 1) + i = base + j + (i + 1) := by omega
      rw [hx]; exact h (i + 1) (by omega))
    refine ⟨v :: rs, ?_⟩
    rw [List.range'_succ]
    simp [measuredLoop, hs, hv, hrec, Except.map]

/-- Events of the measured loop are measured runs only. -/
theorem measuredLoop_events (w : World) (base : Nat) :
    ∀ n j e, e ∈ (measuredLoop w base j n).1 → ∃ a, e = Event.measuredRun a := by
  intro n
  induction n with
  | zero => intro j e he; simp [measuredLoop] at he
  | succ n ih =>
    intro j e he
    cases hr : w.runResult (base + j) with
    | error e0 => simp [measuredLoop, hr] at he; exact ⟨j, he⟩
    | ok s =>
      cases hp : pyParseInt s with
      | none => simp [measuredLoop, hr, hp] at he; exact ⟨j, he⟩
      | some v =>
        simp only [measuredLoop, hr, hp, List.mem_cons] at he
        rcases he with rfl | he
        · exact ⟨j, rfl⟩
        · exact ih (j + 1) e he

/-- Measured loops over environments that agree from `base` on
coincide. -/
theorem measuredLoop_congr (w w2 : World) (base : Nat)
    (hrun : ∀ i, w.runResult (base + i) = w2.runResult (base + i)) :
    ∀ n j, measuredLoop w base j n = measuredLoop w2 base j n := by
  intro n
  induction n with
  | zero => intro j; simp [measuredLoop]
  | succ n ih => intro j; simp only [measuredLoop, hrun j, ih (j + 1)]

/-- Events of the `with`-block body are upload, warmup, measured and
delete events only. -/
theorem evalBody_events (cfg : Config) (w : World) (e : Event)
    (he : e ∈ (evalBody cfg w).1) :
    e = Event.uploadWorkload ∨ (∃ a, e = Event.warmupRun a) ∨
      (∃ a, e = Event.measuredRun a) ∨ e = Event.deleteWorkload := by
  have hmem : e = Event.uploadWorkload ∨
      (e ∈ (warmupLoop w 0 cfg.warmup).1 ∨ e ∈ (measuredLoop w cfg.warmup 0 cfg.reps).1) ∨
      e = Event.deleteWorkload := by
    cases hscp : w.scpResult with
    | some e0 =>
      simp only [evalBody, hscp, List.mem_singleton] at he
      exact Or.inl he
    | none =>
      cases hwu : (warmupLoop w 0 cfg.warmup).2 with
      | some e0 =>
        simp only [evalBody, hscp, hwu, List.mem_cons] at he
        tauto
      | none =>
        cases hml : (measuredLoop w cfg.warmup 0 cfg.reps).2 with
        | error e0 =>
          simp only [evalBody, hscp, hwu, hml, List.mem_cons, List.mem_append] at he
          tauto
        | ok rs =>
          cases hdel : w.deleteResult with
          | some e0 =>
            simp only [evalBody, hscp, hwu, hml, hdel, List.mem_cons, List.mem_append,
              List.mem_singleton, List.not_mem_nil, or_false] at he
            tauto
          | none =>
            simp only [evalBody, hscp, hwu, hml, hdel, List.mem_cons, List.mem_append,
              List.mem_singleton, List.not_mem_nil, or_false] at he
            tauto
  rcases hmem with rfl | he2 | rfl
  · exact Or.inl rfl
  · rcases he2 with he2 | he2
    · exact Or.inr (Or.inl (warmupLoop_events w _ _ e he2))
    · exact Or.inr (Or.inr (Or.inl (measuredLoop_events w _ _ _ e he2)))
  · exact Or.inr (Or.inr (Or.inr rfl))

/-- Inversion for a `with`-block body that returned samples: the upload
succeeded, the warmups all ran, the measured loop produced exactly these
samples, and the delete succeeded. -/
theorem evalBody_ok_inv (cfg : Config) (w : World) (rs : List Int)
    (h : (evalBody cfg w).2 = Except.ok rs) :
    w.scpResult = none ∧ (warmupLoop w 0 cfg.warmup).2 = none ∧
      (measuredLoop w cfg.warmup 0 cfg.reps).2 = Except.ok rs ∧ w.deleteResult = none := by
  cases hscp : w.scpResult with
  | some e0 => simp [evalBody, hscp] at h
  | none =>
    cases hwu : (warmupLoop w 0 cfg.warmup).2 with
    | some e0 => simp [evalBody, hscp, hwu] at h
    | none =>
      cases hml : (measuredLoop w cfg.warmup 0 cfg.reps).2 with
      | error e0 => simp [evalBody, hscp, hwu, hml] at h
      | ok rs2 =>
        cases hdel : w.deleteResult with
        | some e0 => simp [evalBody, hscp, hwu, hml, hdel] at h
        | none =>
          simp only [evalBody, hscp, hwu, hml, hdel, Except.ok.injEq] at h
          exact ⟨rfl, rfl, by rw [h], rfl⟩

/-- Inversion for a kernel evaluation that returned samples: the SSH
session was established, the upload succeeded, the warmups all ran, the
measured loop produced exactly these samples, the delete succeeded, and
the statistics guard passed. -/
theorem evaluate_ok_inv (cfg : Config) (w : World) (rs : List Int)
    (h : (evaluate_kernel cfg w).2 = Except.ok rs) :
    (∃ k, (vmEnter w).2 = Except.ok k) ∧ w.scpResult = none ∧
      (warmupLoop w 0 cfg.warmup).2 = none ∧
      (measuredLoop w cfg.warmup 0 cfg.reps).2 = Except.ok rs ∧
      w.deleteResult = none ∧ 2 ≤ rs.length := by
  cases henter : (vmEnter w).2 with
  | error e => simp [evaluate_kernel, henter] at h
  | ok k =>
    simp only [evaluate_kernel, henter] at h
    cases hbody : (evalBody cfg w).2 with
    | error e => simp [hbody] at h
    | ok results =>
      simp only [hbody] at h
      by_cases hlen : results.length < 2
      · simp [hlen] at h
      · simp only [hlen, if_false, Except.ok.injEq] at h
        subst h
        obtain ⟨h1, h2, h3, h4⟩ := evalBody_ok_inv cfg w results hbody
        exact ⟨⟨k, rfl⟩, h1, h2, h3, h4, by omega⟩

/-- A warmup loop that completed without error ran all its iterations. -/
theorem warmupLoop_none_inv (w : World) :
    ∀ n i, (warmupLoop w i n).2 = none →
      (warmupLoop w i n).1 = (List.range' i n).map Event.warmupRun := by
  intro n
  induction n with
  | zero => intro i _; simp [warmupLoop]
  | succ n ih =>
    intro i h
    cases hr : w.runResult i with
    | error e => rw [warmupLoop, hr] at h ⊢; simp at h
    | ok s =>
      rw [warmupLoop, hr] at h ⊢
      rw [List.range'_succ]
      simp only [List.map_cons, List.cons.injEq, true_and]
      exact ih (i + 1) h

/-- Kernel evaluations over environments that differ only in the outputs
of successful warmup invocations coincide. -/
theorem evaluate_congr (cfg : Config) (w w2 : World)
    (hconn : w.connAttempt = w2.connAttempt) (hscp : w.scpResult = w2.scpResult)
    (hdel : w.deleteResult = w2.deleteResult)
    (hmeas : ∀ i, cfg.warmup ≤ i → w.runResult i = w2.runResult i)
    (hwarm : ∀ i, i < cfg.warmup →
      (∃ s, w.runResult i = Except.ok s) ∧ ∃ s, w2.runResult i = Except.ok s) :
    evaluate_kernel cfg w = evaluate_kernel cfg w2 := by
  have he : vmEnter w = vmEnter w2 := enterLoop_congr w w2 hconn 4 1
  have hwu : warmupLoop w 0 cfg.warmup = warmupLoop w2 0 cfg.warmup := by
    rw [warmupLoop_ok w cfg.warmup 0
        (fun j hj => by simpa using (hwarm j (by simpa using hj)).1),
      warmupLoop_ok w2 cfg.warmup 0
        (fun j hj => by simpa using (hwarm j (by simpa using hj)).2)]
  have hml : measuredLoop w cfg.warmup 0 cfg.reps = measuredLoop w2 cfg.warmup 0 cfg.reps :=
    measuredLoop_congr w w2 cfg.warmup (fun i => hmeas (cfg.warmup + i) (by omega)) cfg.reps 0
  have hbody : evalBody cfg w = evalBody cfg w2 := by
    rw [evalBody, evalBody, hscp, hdel, hwu, hml]
  rw [evaluate_kernel, evaluate_kernel, he, hbody]

/-- The full content that has entered a file handle, flushed or not. -/
def fileContent (f : OutFile) : String := f.flushed ++ f.pending

/-- The kernels loop only ever appends to the output file. -/
theorem kernelsLoop_content (step : Nat → Nat → List Event × Except PyErr (List Int))
    (round : Nat) :
    ∀ ks j f, ∃ s, fileContent (kernelsLoop step round ks j f).2.1 = fileContent f ++ s := by
  intro ks
  induction ks with
  | nil =>
    intro j f
    exact ⟨"", by simp [kernelsLoop, fileContent, String.append_empty]⟩
  | cons kpath rest ih =>
    intro j f
    rcases hstep : step round j with ⟨evs, res⟩
    cases res with
    | error e =>
      refine ⟨"", ?_⟩
      simp [kernelsLoop, hstep, String.append_empty]
    | ok results =>
      obtain ⟨s2, hs2⟩ := ih (j + 1) (write_results_to_file f kpath round results)
      refine ⟨resultRowStr kpath round results ++ s2, ?_⟩
      simp only [kernelsLoop, hstep]
      rw [hs2]
      simp [fileContent, write_results_to_file, flushFile, String.append_assoc,
        String.append_empty]

/-- The rounds loop only ever appends to the output file. -/
theorem roundsLoop_content (step : Nat → Nat → List Event × Except PyErr (List Int))
    (kernels : List String) :
    ∀ n r f, ∃ s, fileContent (roundsLoop step kernels r n f).2.1 = fileContent f ++ s := by
  intro n
  induction n with
  | zero =>
    intro r f
    exact ⟨"", by simp [roundsLoop, fileContent, String.append_empty]⟩
  | succ n ih =>
    intro r f
    obtain ⟨s1, hs1⟩ := kernelsLoop_content step r kernels 0 f
    rcases hkl : kernelsLoop step r kernels 0 f with ⟨evs, f2, opt⟩
    rw [hkl] at hs1
    cases opt with
    | some e =>
      refine ⟨s1, ?_⟩
      simp only [roundsLoop, hkl]
      exact hs1
    | none =>
      obtain ⟨s2, hs2⟩ := ih (r + 1) f2
      refine ⟨s1 ++ s2, ?_⟩
      simp only [roundsLoop, hkl]
      rw [hs2, hs1, String.append_assoc]

/-- Whatever happens inside the loops, `main`'s `finally` closes the file
the loops produced. -/
theorem mainWith_file (cfg : Config) (kernels : List String)
    (step : Nat → Nat → List Event × Except PyErr (List Int)) (f0 : OutFile) :
    (mainWith cfg kernels step f0).2.1 =
      closeFile (roundsLoop step kernels 0 cfg.rounds (init_output_file cfg f0)).2.1 := by
  rcases hrl : roundsLoop step kernels 0 cfg.rounds (init_output_file cfg f0) with ⟨evs, f2, opt⟩
  cases opt with
  | none => simp [mainWith, hrl]
  | some e => cases e <;> simp [mainWith, hrl]

/-- The closed output file of any run starts with the header row. -/
theorem mainWith_flushed_starts_with_header (cfg : Config) (kernels : List String)
    (step : Nat → Nat → List Event × Except PyErr (List Int)) :
    ∃ rest, (mainWith cfg kernels step emptyFile).2.1.flushed = headerRow cfg ++ rest := by
  obtain ⟨s, hs⟩ :=
    roundsLoop_content step kernels cfg.rounds 0 (init_output_file cfg emptyFile)
  refine ⟨s, ?_⟩
  rw [mainWith_file]
  exact hs

/-! ### Claims -/

/-- Environment for claim C1: the guest never becomes reachable — every
SSH connection attempt fails with a communication error. -/
def wC1 : World :=
  ⟨fun k => some (PyErr.commsError k), none, fun _ => Except.ok "0", none⟩

/-- C1: the claim asserts teardown runs exactly once per successful VM
construction on every exit path, including a connection-establishment
failure after the retry limit. On that path the code does not tear down:
`VM.__init__` has already started the qemu process (one `constructVM`
event), `__enter__` raises after five failed attempts, and Python does not
call `__exit__` when `__enter__` raises, so no `terminateProcess` (nor
`closeSession` or `writeQemuExit`) appears in the trace — the hypervisor
process is leaked. -/
theorem c1_teardown_skipped_on_connect_failure :
    evaluate_kernel defaultConfig wC1 =
      ([Event.constructVM, Event.connAttempt 1, Event.connAttempt 2, Event.connAttempt 3,
        Event.connAttempt 4, Event.connAttempt 5], Except.error (PyErr.commsError 5)) ∧
    countEvent Event.constructVM (evaluate_kernel defaultConfig wC1).1 = 1 ∧
    countEvent Event.terminateProcess (evaluate_kernel defaultConfig wC1).1 = 0 :=
  ⟨by decide, by decide, by decide⟩

/-- C2: with at least one round and one kernel candidate, the first
iteration of the kernel loop raises `NameError` (the source calls the
undefined `evaluating_kernel`); nothing is evaluated (no events, so no VM
is ever constructed), no data row is written, and the `finally` block
closes the output file, which then contains exactly the header row, before
the error propagates out of `main`. -/
theorem c2_undefined_name_aborts_with_header_only (cfg : Config) (kernels : List String)
    (hr : 1 ≤ cfg.rounds) (hk : kernels ≠ []) :
    main cfg kernels emptyFile =
      ([], { flushed := headerRow cfg, pending := "", closed := true },
        Except.error PyErr.nameError) := by
  rcases cfg with ⟨nr, np, nw⟩
  have hr2 : 1 ≤ nr := hr
  obtain ⟨m, rfl⟩ : ∃ m, nr = m + 1 := ⟨nr - 1, by omega⟩
  rcases kernels with _ | ⟨kp, rest⟩
  · exact absurd rfl hk
  · simp only [main, mainWith, roundsLoop, kernelsLoop, nameErrorStep]
    rfl

/-- Witness for C2 at the source's configuration and one kernel. -/
theorem c2_witness :
    main defaultConfig ["kernel.img"] emptyFile =
      ([], { flushed := headerRow defaultConfig, pending := "", closed := true },
        Except.error PyErr.nameError) :=
  c2_undefined_name_aborts_with_header_only defaultConfig ["kernel.img"] (by decide)
    (by decide)

/-- C4: connection establishment makes at most five attempts; if all five
fail with communication-layer errors it fails carrying the last underlying
cause (the code re-raises the last caught error, which the spec labels
`ConnectionTimeout`); and if attempt `1 + m ≤ 5` succeeds after `m`
communication failures, the VM is ready with the session handle of that
attempt stored and no further attempts are made. -/
theorem c4_connection_retry_bounded (w : World) :
    countAttempts (vmEnter w).1 ≤ 5 ∧
    ((∀ j, 1 ≤ j → j ≤ 5 → ∃ e, w.connAttempt j = some e ∧ isCommsError e = true) →
      ∃ e, w.connAttempt 5 = some e ∧
        vmEnter w = ((List.range' 1 5).map Event.connAttempt, Except.error e)) ∧
    ∀ m, m ≤ 4 →
      (∀ j, 1 ≤ j → j < 1 + m → ∃ e, w.connAttempt j = some e ∧ isCommsError e = true) →
      w.connAttempt (1 + m) = none →
      vmEnter w = ((List.range' 1 m).map Event.connAttempt ++
        [Event.connAttempt (1 + m), Event.sessionEstablished (1 + m)], Except.ok (1 + m)) := by
  refine ⟨enterLoop_attempts_le w 4 1, ?_, ?_⟩
  · intro h
    obtain ⟨e, he, heq⟩ := enterLoop_all_fail w 4 1 (fun j h1 h2 => h j h1 (by omega))
    exact ⟨e, by simpa using he, heq⟩
  · intro m hm h hconn
    exact enterLoop_success_at w m 4 1 hm h hconn

/-- Witness environment for C4: every attempt fails with a distinct
communication error. -/
def wC4a : World :=
  ⟨fun k => some (PyErr.commsError (10 + k)), none, fun _ => Except.ok "0", none⟩

/-- Witness environment for C4: attempt 1 fails with a communication
error, attempt 2 succeeds. -/
def wC4b : World :=
  ⟨fun k => if k = 1 then some (PyErr.commsError 1) else none, none,
    fun _ => Except.ok "0", none⟩

/-- Witness for C4: the all-fail branch carries the fifth attempt's error,
and the succeed-on-attempt-2 branch stops after two attempts. -/
theorem c4_witness :
    vmEnter wC4a = ((List.range' 1 5).map Event.connAttempt,
      Except.error (PyErr.commsError 15)) ∧
    vmEnter wC4b = ([Event.connAttempt 1, Event.connAttempt 2, Event.sessionEstablished 2],
      Except.ok 2) := by
  constructor
  · obtain ⟨e, he, heq⟩ := (c4_connection_retry_bounded wC4a).2.1
      (fun j h1 h2 => ⟨PyErr.commsError (10 + j), rfl, rfl⟩)
    have he2 : some (PyErr.commsError 15) = some e := he
    injection he2 with he3
    rw [← he3] at heq
    exact heq
  · have h := (c4_connection_retry_bounded wC4b).2.2 1 (by omega)
      (fun j h1 h2 => by
        have hj : j = 1 := by omega
        subst hj
        exact ⟨PyErr.commsError 1, rfl, rfl⟩)
      (by decide)
    simpa using h

/-- Counterexample environment for C3: kernel 0 of each round never
becomes reachable, kernel 1 would evaluate cleanly. -/
def envC3 : Nat → Nat → World :=
  fun _ j =>
    if j = 0 then ⟨fun k => some (PyErr.commsError k), none, fun _ => Except.ok "7", none⟩
    else ⟨fun _ => none, none, fun _ => Except.ok "7", none⟩

/-- The C3 counterexample run: one round, two kernels, kernel 0 times
out. -/
def c3run : List Event × OutFile × Except PyErr Nat :=
  mainWith ⟨1, 2, 1⟩ ["k0", "k1"] (evalStep ⟨1, 2, 1⟩ envC3) emptyFile

/-- C3 counterexample: the claim says a kernel-scoped error (here, the
connection timeout of kernel 0) is caught at the session boundary and the
session continues with the next kernel. In the code, `main` catches only
`KeyboardInterrupt`: the timeout error propagates out of the run, no row
is skipped-and-continued (the file holds only the header), and kernel 1 is
never evaluated (only one VM is ever constructed). -/
theorem c3_counterexample :
    c3run.2.2 = Except.error (PyErr.commsError 5) ∧
    c3run.2.1 = { flushed := headerRow ⟨1, 2, 1⟩, pending := "", closed := true } ∧
    countEvent Event.constructVM c3run.1 = 1 :=
  ⟨by decide, by decide, by decide⟩

/-- C3 amended: kernel/round-scoped errors are not caught at the session
boundary. Any error other than `KeyboardInterrupt` raised by the first
kernel's evaluation propagates out of the session, aborting the whole run;
the output file is closed by the `finally` block holding only the header,
and no later kernel or round is evaluated. -/
theorem c3_kernel_errors_abort_run (cfg : Config) (kernels : List String)
    (step : Nat → Nat → List Event × Except PyErr (List Int)) (kp : String)
    (rest : List String) (e : PyErr) (evs : List Event)
    (hk : kernels = kp :: rest) (hr : 1 ≤ cfg.rounds)
    (hstep : step 0 0 = (evs, Except.error e)) (hKI : e ≠ PyErr.keyboardInterrupt) :
    mainWith cfg kernels step emptyFile =
      (evs, { flushed := headerRow cfg, pending := "", closed := true }, Except.error e) := by
  subst hk
  rcases cfg with ⟨nr, np, nw⟩
  have hr2 : 1 ≤ nr := hr
  obtain ⟨m, rfl⟩ : ∃ m, nr = m + 1 := ⟨nr - 1, by omega⟩
  simp only [mainWith, roundsLoop, kernelsLoop, hstep]
  cases e
  case keyboardInterrupt => exact absurd rfl hKI
  all_goals rfl

/-- Witness step for C3: a remote execution failure on the first
kernel. -/
def stepC3w : Nat → Nat → List Event × Except PyErr (List Int) :=
  fun _ _ => ([], Except.error (PyErr.processError 7))

/-- Witness for C3's amended statement at a concrete failing step. -/
theorem c3_witness :
    mainWith ⟨1, 2, 1⟩ ["a"] stepC3w emptyFile =
      ([], { flushed := headerRow ⟨1, 2, 1⟩, pending := "", closed := true },
        Except.error (PyErr.processError 7)) :=
  c3_kernel_errors_abort_run ⟨1, 2, 1⟩ ["a"] stepC3w "a" [] (PyErr.processError 7) [] rfl
    (by decide) rfl (by decide)

/-- Counterexample environment for C5: the workload always reports `-1`,
which Python's `int()` accepts. -/
def wC5 : World := ⟨fun _ => none, none, fun _ => Except.ok "-1", none⟩

/-- C5 counterexample: the claim says every persisted sample is a
non-negative integer. With a workload printing `-1`, the evaluation
completes successfully with all fifty samples equal to `-1`, which is
negative — the code never checks the sign, so non-negativity depends on
the workload, not on the program. -/
theorem c5_counterexample :
    (evaluate_kernel defaultConfig wC5).2 = Except.ok (List.replicate 50 (-1)) ∧
    ¬ ∀ x ∈ List.replicate 50 (-1 : Int), 0 ≤ x :=
  ⟨by decide, by decide⟩

/-- C5 amended: a successful evaluation has exactly
`RepetitionsPerRound` samples, in collection order the `i`-th sample is
the integer parsed from the `i`-th measured output, and the samples are
all non-negative provided every measured output parses to a non-negative
integer. -/
theorem c5_row_samples (cfg : Config) (w : World) (rs : List Int)
    (h : (evaluate_kernel cfg w).2 = Except.ok rs) :
    rs.length = cfg.reps ∧
    (∀ i, i < cfg.reps → ∃ s v, w.runResult (cfg.warmup + i) = Except.ok s ∧
      pyParseInt s = some v ∧ rs[i]? = some v) ∧
    ((∀ i s v, i < cfg.reps → w.runResult (cfg.warmup + i) = Except.ok s →
        pyParseInt s = some v → 0 ≤ v) → ∀ x ∈ rs, 0 ≤ x) := by
  obtain ⟨-, -, -, hml, -, -⟩ := evaluate_ok_inv cfg w rs h
  have hpair : measuredLoop w cfg.warmup 0 cfg.reps =
      ((measuredLoop w cfg.warmup 0 cfg.reps).1, Except.ok rs) := by
    rw [Prod.ext_iff]
    exact ⟨rfl, hml⟩
  obtain ⟨hlen, -, hidx⟩ := measuredLoop_ok_inv w cfg.warmup cfg.reps 0 _ rs hpair
  have hidx2 : ∀ i, i < cfg.reps → ∃ s v, w.runResult (cfg.warmup + i) = Except.ok s ∧
      pyParseInt s = some v ∧ rs[i]? = some v := by
    intro i hi
    obtain ⟨s, v, h1, h2, h3⟩ := hidx i hi
    exact ⟨s, v, by simpa using h1, h2, h3⟩
  refine ⟨hlen, hidx2, ?_⟩
  intro hpos x hx
  obtain ⟨i, hget⟩ := List.mem_iff_getElem?.mp hx
  have hi : i < rs.length := by
    by_contra hcon
    rw [List.getElem?_eq_none (by omega)] at hget
    cases hget
  obtain ⟨s, v, h1, h2, h3⟩ := hidx2 i (by omega)
  have hxv : v = x := by
    have := h3.symm.trans hget
    injection this
  exact hxv ▸ hpos i s v (by omega) h1 h2

/-- Witness environment for C5: the workload always reports `7`. -/
def wC5w : World := ⟨fun _ => none, none, fun _ => Except.ok "7", none⟩

/-- Witness for C5's amended statement: two measured repetitions of a
workload printing `7` give the row `[7, 7]`, of the configured length and
non-negative. -/
theorem c5_witness :
    ([7, 7] : List Int).length = (⟨1, 2, 1⟩ : Config).reps ∧
    ∀ x ∈ ([7, 7] : List Int), 0 ≤ x := by
  have h := c5_row_samples ⟨1, 2, 1⟩ wC5w [7, 7] (by decide)
  refine ⟨h.1, h.2.2 ?_⟩
  intro i s v hi hs hv
  have hs2 : Except.ok "7" = Except.ok s := hs
  injection hs2 with hs3
  subst hs3
  have hv2 : some (7 : Int) = some v := hv
  injection hv2 with hv3
  omega

/-- C6: the workload runs `WarmupRuns` times, outputs discarded, before
any measured repetition (on a successful evaluation the trace is the
warmup runs, then the measured runs, then the delete and the teardown),
and the evaluation's entire outcome — samples, hence also the mean and
standard deviation computed from them — is unchanged under any change of
the successful warmup invocations' outputs. -/
theorem c6_warmup_isolated (cfg : Config) (w w2 : World)
    (hconn : w.connAttempt = w2.connAttempt) (hscp : w.scpResult = w2.scpResult)
    (hdel : w.deleteResult = w2.deleteResult)
    (hmeas : ∀ i, cfg.warmup ≤ i → w.runResult i = w2.runResult i)
    (hwarm : ∀ i, i < cfg.warmup →
      (∃ s, w.runResult i = Except.ok s) ∧ ∃ s, w2.runResult i = Except.ok s) :
    evaluate_kernel cfg w = evaluate_kernel cfg w2 ∧
    ∀ rs, (evaluate_kernel cfg w).2 = Except.ok rs →
      ∃ pre, (evaluate_kernel cfg w).1 =
        pre ++ (List.range cfg.warmup).map Event.warmupRun ++
          (List.range cfg.reps).map Event.measuredRun ++ [Event.deleteWorkload] ++
          vmExit true := by
  refine ⟨evaluate_congr cfg w w2 hconn hscp hdel hmeas hwarm, ?_⟩
  intro rs h
  obtain ⟨⟨k, henter⟩, hscpn, hwun, hmln, hdeln, -⟩ := evaluate_ok_inv cfg w rs h
  refine ⟨Event.constructVM :: ((vmEnter w).1 ++ [Event.uploadWorkload]), ?_⟩
  have hpair : measuredLoop w cfg.warmup 0 cfg.reps =
      ((measuredLoop w cfg.warmup 0 cfg.reps).1, Except.ok rs) := by
    rw [Prod.ext_iff]
    exact ⟨rfl, hmln⟩
  obtain ⟨-, hevs, -⟩ := measuredLoop_ok_inv w cfg.warmup cfg.reps 0 _ rs hpair
  simp only [evaluate_kernel, henter, evalBody, hscpn, hwun, hmln, hdeln]
  rw [warmupLoop_none_inv w cfg.warmup 0 hwun, hevs]
  simp [List.append_assoc, List.range_eq_range']

/-- Witness environments for C6: identical except for the warmup output
(`1` vs `2`); measured outputs are `9`. -/
def wC6a : World :=
  ⟨fun _ => none, none, fun i => Except.ok (if i = 0 then "1" else "9"), none⟩

/-- Second witness environment for C6. -/
def wC6b : World :=
  ⟨fun _ => none, none, fun i => Except.ok (if i = 0 then "2" else "9"), none⟩

/-- Witness for C6 at one warmup run and two measured repetitions. -/
theorem c6_witness :
    evaluate_kernel ⟨1, 2, 1⟩ wC6a = evaluate_kernel ⟨1, 2, 1⟩ wC6b ∧
    ∃ pre, (evaluate_kernel ⟨1, 2, 1⟩ wC6a).1 =
      pre ++ (List.range 1).map Event.warmupRun ++ (List.range 2).map Event.measuredRun ++
        [Event.deleteWorkload] ++ vmExit true := by
  have h := c6_warmup_isolated ⟨1, 2, 1⟩ wC6a wC6b rfl rfl rfl
    (fun i hi => by
      have hi2 : 1 ≤ i := hi
      have hne : i ≠ 0 := by omega
      simp [wC6a, wC6b, hne])
    (fun i hi => by
      have hi2 : i < 1 := hi
      have hz : i = 0 := by omega
      subst hz
      exact ⟨⟨"1", rfl⟩, ⟨"2", rfl⟩⟩)
  exact ⟨h.1, h.2 [9, 9] (by decide)⟩

/-- Environment for C7's scenario: the workload always prints `100`. -/
def wC7 : World := ⟨fun _ => none, none, fun _ => Except.ok "100", none⟩

/-- C7: the header row is the comma-joined column names
`kernel path`, `round`, `run 0` … `run R-1` (shown at `R = 3`); every
completed evaluation appends exactly one data row — kernel path, round
index, samples in order — and flushes it (nothing stays pending); any
run's flushed output starts with the header; and in the spec's scenario
(1 round, 1 kernel, 3 repetitions, workload printing `100`) the file is
the header followed by `kernel.img,0,100,100,100`, with sample mean 100
and sample variance (squared standard deviation) 0. -/
theorem c7_output_format :
    headerRow ⟨1, 3, 5⟩ = "kernel path,round,run 0,run 1,run 2\n" ∧
    (∀ f kpath round rs, write_results_to_file f kpath round rs =
      { flushed := f.flushed ++ (f.pending ++ resultRowStr kpath round rs), pending := "",
        closed := f.closed }) ∧
    (∀ cfg kernels step, ∃ rest,
      (mainWith cfg kernels step emptyFile).2.1.flushed = headerRow cfg ++ rest) ∧
    resultRowStr "kernel.img" 0 [100, 100, 100] = "kernel.img,0,100,100,100\n" ∧
    (mainWith ⟨1, 3, 5⟩ ["kernel.img"] (evalStep ⟨1, 3, 5⟩ (fun _ _ => wC7)) emptyFile).2.1 =
      { flushed := "kernel path,round,run 0,run 1,run 2\nkernel.img,0,100,100,100\n",
        pending := "", closed := true } ∧
    sampleMean [100, 100, 100] = 100 ∧ sampleVar [100, 100, 100] = 0 := by
  refine ⟨by decide, fun f kpath round rs => rfl,
    fun cfg kernels step => mainWith_flushed_starts_with_header cfg kernels step,
    by decide, by decide, ?_, ?_⟩
  · norm_num [sampleMean]
  · norm_num [sampleVar, sampleMean]

/-- Environment for C8: everything succeeds except the remote delete of
the workload binary. -/
def wC8 : World :=
  ⟨fun _ => none, none, fun _ => Except.ok "100", some (PyErr.processError 3)⟩

/-- C8 counterexample: the claim says a failing remote delete is logged
only and never propagated, and the kernel's row is still persisted. In
the code `vm.ssh.path(...).delete()` has no handler: its error aborts the
kernel's evaluation, no row is written (the file holds only the header),
and — uncaught in `main` — the error aborts the whole session. -/
theorem c8_counterexample :
    (evaluate_kernel ⟨1, 2, 1⟩ wC8).2 = Except.error (PyErr.processError 3) ∧
    (mainWith ⟨1, 2, 1⟩ ["k"] (evalStep ⟨1, 2, 1⟩ (fun _ _ => wC8)) emptyFile).2.2 =
      Except.error (PyErr.processError 3) ∧
    (mainWith ⟨1, 2, 1⟩ ["k"] (evalStep ⟨1, 2, 1⟩ (fun _ _ => wC8)) emptyFile).2.1.flushed =
      headerRow ⟨1, 2, 1⟩ :=
  ⟨by decide, by decide, by decide⟩

/-- C8 amended: when connection, upload, warmups and measured repetitions
all succeed but the remote delete fails, the delete's error propagates out
of the kernel's evaluation (after the VM teardown of the `with` block
runs) and the kernel's samples are lost rather than persisted. -/
theorem c8_delete_failure_aborts (cfg : Config) (w : World) (e : PyErr) (k : Nat)
    (henter : (vmEnter w).2 = Except.ok k) (hscp : w.scpResult = none)
    (hwarm : ∀ i, i < cfg.warmup → ∃ s, w.runResult i = Except.ok s)
    (hmeas : ∀ i, i < cfg.reps → ∃ s v, w.runResult (cfg.warmup + i) = Except.ok s ∧
      pyParseInt s = some v)
    (hdel : w.deleteResult = some e) :
    (evaluate_kernel cfg w).2 = Except.error e ∧
    ∃ pre, (evaluate_kernel cfg w).1 = pre ++ vmExit true := by
  have hwu := warmupLoop_ok w cfg.warmup 0
    (fun j hj => by simpa using hwarm j (by simpa using hj))
  obtain ⟨rs, hml⟩ := measuredLoop_ok_shape w cfg.warmup cfg.reps 0 (fun i hi => by
    obtain ⟨s, v, h1, h2⟩ := hmeas i hi
    exact ⟨s, v, by simpa using h1, h2⟩)
  constructor
  · simp only [evaluate_kernel, henter, evalBody, hscp, hwu, hml, hdel]
  · refine ⟨Event.constructVM :: ((vmEnter w).1 ++ (evalBody cfg w).1), ?_⟩
    simp only [evaluate_kernel, henter]
    simp [List.append_assoc]

/-- Witness for C8's amended statement at a concrete environment. -/
theorem c8_witness :
    (evaluate_kernel ⟨1, 2, 1⟩ wC8).2 = Except.error (PyErr.processError 3) ∧
    ∃ pre, (evaluate_kernel ⟨1, 2, 1⟩ wC8).1 = pre ++ vmExit true :=
  c8_delete_failure_aborts ⟨1, 2, 1⟩ wC8 (PyErr.processError 3) 1 (by decide) rfl
    (fun i hi => ⟨"100", rfl⟩) (fun i hi => ⟨"100", 100, rfl, by decide⟩) rfl

/-- Events of the part of an evaluation that precedes teardown. -/
theorem pre_events_mem (cfg : Config) (w : World) (x : Event)
    (hx : x ∈ Event.constructVM :: ((vmEnter w).1 ++ (evalBody cfg w).1)) :
    x = Event.constructVM ∨ (∃ a, x = Event.connAttempt a) ∨
      (∃ a, x = Event.sessionEstablished a) ∨ x = Event.uploadWorkload ∨
      (∃ a, x = Event.warmupRun a) ∨ (∃ a, x = Event.measuredRun a) ∨
      x = Event.deleteWorkload := by
  rcases List.mem_cons.mp hx with heq | hm
  · exact Or.inl heq
  · rcases List.mem_append.mp hm with hm | hm
    · rcases enterLoop_events w 4 1 x hm with h | h
      · exact Or.inr (Or.inl h)
      · exact Or.inr (Or.inr (Or.inl h))
    · rcases evalBody_events cfg w x hm with h | h | h | h <;> tauto

/-- C9: during teardown of a VM whose session was established, the
session close is the first teardown action: the trace of a kernel
evaluation ends with `__exit__`'s four actions in order — close the
session, write the qemu exit sequence, terminate the process, grace
period — and no close, exit-write or terminate occurs anywhere before
that suffix, so the session is closed before the VM is told to stop. -/
theorem c9_session_closed_before_shutdown (cfg : Config) (w : World) (k : Nat)
    (henter : (vmEnter w).2 = Except.ok k) :
    vmExit true = [Event.closeSession, Event.writeQemuExit, Event.terminateProcess,
      Event.gracePeriod] ∧
    ∃ pre, (evaluate_kernel cfg w).1 = pre ++ vmExit true ∧
      Event.closeSession ∉ pre ∧ Event.writeQemuExit ∉ pre ∧
      Event.terminateProcess ∉ pre := by
  refine ⟨rfl, Event.constructVM :: ((vmEnter w).1 ++ (evalBody cfg w).1), ?_, ?_, ?_, ?_⟩
  · simp only [evaluate_kernel, henter]
    simp [List.append_assoc]
  · intro hmem
    rcases pre_events_mem cfg w _ hmem with h | ⟨a, h⟩ | ⟨a, h⟩ | h | ⟨a, h⟩ | ⟨a, h⟩ | h <;>
      exact Event.noConfusion h
  · intro hmem
    rcases pre_events_mem cfg w _ hmem with h | ⟨a, h⟩ | ⟨a, h⟩ | h | ⟨a, h⟩ | ⟨a, h⟩ | h <;>
      exact Event.noConfusion h
  · intro hmem
    rcases pre_events_mem cfg w _ hmem with h | ⟨a, h⟩ | ⟨a, h⟩ | h | ⟨a, h⟩ | ⟨a, h⟩ | h <;>
      exact Event.noConfusion h

/-- Witness environment for C9: a clean evaluation. -/
def wC9 : World := ⟨fun _ => none, none, fun _ => Except.ok "5", none⟩

/-- Witness for C9 at a concrete clean evaluation. -/
theorem c9_witness :
    vmExit true = [Event.closeSession, Event.writeQemuExit, Event.terminateProcess,
      Event.gracePeriod] ∧
    ∃ pre, (evaluate_kernel ⟨1, 2, 1⟩ wC9).1 = pre ++ vmExit true ∧
      Event.closeSession ∉ pre ∧ Event.writeQemuExit ∉ pre ∧
      Event.terminateProcess ∉ pre :=
  c9_session_closed_before_shutdown ⟨1, 2, 1⟩ wC9 1 rfl

/-- Environment for C10: kernel 0 evaluates cleanly; during kernel 1's
connection poll the user's interrupt is delivered (the `SshMachine` call
raises `KeyboardInterrupt`, which the retry loop's `except` clause does
not catch). -/
def envC10 : Nat → Nat → World :=
  fun _ j =>
    if j = 0 then ⟨fun _ => none, none, fun _ => Except.ok "100", none⟩
    else ⟨fun _ => some PyErr.keyboardInterrupt, none, fun _ => Except.ok "100", none⟩

/-- The C10 run: one round, two kernels, interrupt while connecting to
kernel 1's VM. -/
def c10run : List Event × OutFile × Except PyErr Nat :=
  mainWith ⟨1, 2, 1⟩ ["k0", "k1"] (evalStep ⟨1, 2, 1⟩ envC10) emptyFile

/-- C10: the claim says an interruption delivered during any stage is
caught at the top level, the in-flight VM is torn down, the output is
flushed and closed, no partial row is written and prior rows survive.
All of that holds here except the teardown: the interrupt is caught
(`main` returns 0), the file is closed with kernel 0's flushed row intact
and nothing pending, but kernel 1's VM — whose qemu process was already
started when the interrupt hit the connection poll inside `__enter__` —
is never terminated: two `constructVM` events, only one
`terminateProcess`. -/
theorem c10_interrupt_during_connect_leaks_vm :
    c10run.2.2 = Except.ok 0 ∧
    c10run.2.1.closed = true ∧
    c10run.2.1.flushed = headerRow ⟨1, 2, 1⟩ ++ resultRowStr "k0" 0 [100, 100] ∧
    c10run.2.1.pending = "" ∧
    countEvent Event.constructVM c10run.1 = 2 ∧
    countEvent Event.terminateProcess c10run.1 = 1 :=
  ⟨by decide, by decide, by decide, by decide, by decide, by decide⟩

end LsmPerf
